import Mathlib

/-!
Verification development for the chat-openapi repository.

Shallow embedding of the core RAG pipeline:
  * the streaming re-buffers of `OpenRouterService.stream_chat_completion`
    (backend/app/services/openrouter_service.py, lines 140-166) and
    `RAGService.generate_response` (backend/app/services/rag_service.py,
    lines 119-128);
  * the query enrichment, context cleaning and refusal/clarification gates
    of `RAGService` (rag_service.py);
  * the chunker `OpenAPIChunker.chunk_specification`
    (backend/app/services/chunking_service.py);
  * the parser `FileService.parse_openapi_spec`
    (backend/app/services/file_service.py);
  * `VectorStorageService._generate_point_id` and
    `VectorStorageService.get_collection_size`
    (backend/app/services/vector_storage.py).

Python strings are modelled as Lean `String` (Python `len` counts
characters, as does `String.length`); Python dicts, which iterate in
insertion order, are modelled as association lists; Python exceptions
are modelled with `Except`; external collaborators (the vector store
search, the remote completion stream, the JSON/YAML decoders, the
process hash) are abstracted as function parameters.

The file is laid out as: all definitions first, then all theorems.
-/

namespace ChatOpenAPI

/-! # Definitions -/

/-! ## Concatenation of string lists (models Python `"".join`) -/

def concatStrs : List String → String
  | [] => ""
  | s :: rest => s ++ concatStrs rest

/-! ## Streaming re-buffers

`openrouter_service.py` lines 140-166: the Completion Gateway accumulates
incoming content fragments in `buffer`; empty fragments are skipped (the
walrus test `if content := delta.get("content")`); the buffer is flushed
when the joined buffer reaches 20 characters or the latest fragment
contains one of `.` `!` `?` `\n`; on the `[DONE]` completion signal any
remaining buffered content is flushed.

`rag_service.py` lines 119-128: the RAG Orchestrator re-buffers the
gateway's fragments the same way with threshold 100, appending every
token (no emptiness test), with a final flush after the loop. -/

def isTerminalChar (c : Char) : Bool :=
  c = '.' || c = '!' || c = '?' || c = '\n'

/-- Models `any(c in fragment for c in [".", "!", "?", "\n"])`. -/
def hasTerminal (s : String) : Bool := s.data.any isTerminalChar

/-- The gateway buffering loop over the content fragments of the remote
stream (openrouter_service.py lines 140-166), `buf` being the current
`buffer` list.  The `[]` case is the `[DONE]` branch (lines 146-149). -/
def gatewayGo : List String → List String → List String
  | buf, [] => if buf.isEmpty then [] else [concatStrs buf]
  | buf, f :: rest =>
    if f = "" then gatewayGo buf rest
    else
      let buf2 := buf ++ [f]
      let combined := concatStrs buf2
      if combined.length ≥ 20 || hasTerminal f then
        combined :: gatewayGo [] rest
      else gatewayGo buf2 rest

/-- Models `OpenRouterService.stream_chat_completion` viewed as a function from
the raw content fragments of a completed remote stream to the fragments
it yields. -/
def stream_chat_completion (frags : List String) : List String :=
  gatewayGo [] frags

/-- The orchestrator buffering loop (rag_service.py lines 119-128). -/
def orchestratorGo : List String → List String → List String
  | buf, [] => if buf.isEmpty then [] else [concatStrs buf]
  | buf, t :: rest =>
    let buf2 := buf ++ [t]
    let combined := concatStrs buf2
    if combined.length ≥ 100 || hasTerminal t then
      combined :: orchestratorGo [] rest
    else orchestratorGo buf2 rest

/-- The second-level re-buffer applied by `RAGService.generate_response`
to the gateway's fragments, for a stream that completes normally. -/
def rebufferResponse (tokens : List String) : List String :=
  orchestratorGo [] tokens

/-- The orchestrator buffering loop when the underlying stream raises
after yielding its tokens: the loop body runs for every yielded token,
but the final `if buffer: yield` after the loop is never reached, so a
partial buffer is dropped (rag_service.py lines 119-128). -/
def orchestratorGoInterrupted : List String → List String → List String
  | _, [] => []
  | buf, t :: rest =>
    let buf2 := buf ++ [t]
    let combined := concatStrs buf2
    if combined.length ≥ 100 || hasTerminal t then
      combined :: orchestratorGoInterrupted [] rest
    else orchestratorGoInterrupted buf2 rest

/-! ## Python string primitives

`str.lower` is modelled with `Char.toLower` mapped over the characters
(Python's behaviour on ASCII text, which is all the fixed keyword tests
use); `x in s` (substring test) is `containsSub`; `str.split()` is
`chWords` (split on whitespace runs, no empty words); `' '.join` is
`joinSpace`. -/

/-- Python `s.lower()`. -/
def pyLower (s : String) : String := ⟨s.data.map Char.toLower⟩

/-- Python `needle in hay` on character lists: some tail of `hay` starts with
`needle`. -/
def listContainsSub (needle : List Char) : List Char → Bool
  | [] => needle.isEmpty
  | c :: rest => needle.isPrefixOf (c :: rest) || listContainsSub needle rest

/-- Python `needle in hay` for strings. -/
def containsSub (hay needle : String) : Bool :=
  listContainsSub needle.data hay.data

/-- Helper for `chWords`: `cur` is the word being accumulated. -/
def wordsGo (cur : List Char) : List Char → List (List Char)
  | [] => if cur = [] then [] else [cur]
  | c :: cs =>
    if c.isWhitespace then
      if cur = [] then wordsGo [] cs else cur :: wordsGo [] cs
    else wordsGo (cur ++ [c]) cs

/-- Python `s.split()` on a character list: maximal runs of
non-whitespace characters. -/
def chWords (l : List Char) : List (List Char) := wordsGo [] l

/-- Python `' '.join(words)` on character lists. -/
def joinSpace : List (List Char) → List Char
  | [] => []
  | [w] => w
  | w :: w2 :: rest => w ++ ' ' :: joinSpace (w2 :: rest)

/-- Python `' '.join(s.split())` — collapse internal whitespace runs to
single spaces and trim the ends (rag_service.py lines 36 and 45). -/
def collapseWs (s : String) : String := ⟨joinSpace (chWords s.data)⟩

/-- Number of words of a Python string, `len(s.split())`. -/
def pyWordCount (s : String) : Nat := (chWords s.data).length

/-- Python `s.strip()`: drop leading and trailing whitespace. -/
def pyStrip (s : String) : String :=
  ⟨(((s.data.dropWhile Char.isWhitespace).reverse.dropWhile
      Char.isWhitespace).reverse)⟩

/-! ## Context cleaning (`RAGService.clean_context`, rag_service.py lines 29-47) -/

/-- Models `any(keyword in ctx.lower() for keyword in kws)`. -/
def kwAny (kws : List String) (ctx : String) : Bool :=
  kws.any fun kw => containsSub (pyLower ctx) kw

/-- The keyword list of rag_service.py line 34: chunks containing any of
these are always kept. -/
def apiContentKeywords : List String :=
  ["operationid", "endpoint", "path", "get", "post", "put", "delete"]

/-- The keyword list of rag_service.py line 41: long chunks lacking all
of these are dropped. -/
def apiRelatedKeywords : List String :=
  ["endpoint", "api", "auth", "path"]

/-- The keep/drop decision implicit in `clean_context`. -/
def keepContext (ctx : String) : Bool :=
  kwAny apiContentKeywords ctx ||
    !(decide (pyWordCount ctx > 100) && !kwAny apiRelatedKeywords ctx)

/-- Models `RAGService.clean_context` (rag_service.py lines 29-47). -/
def clean_context : List String → List String
  | [] => []
  | ctx :: rest =>
    if kwAny apiContentKeywords ctx then collapseWs ctx :: clean_context rest
    else if decide (pyWordCount ctx > 100) && !kwAny apiRelatedKeywords ctx then
      clean_context rest
    else collapseWs ctx :: clean_context rest

/-! ## Query enrichment and retrieval (`RAGService.get_context`,
rag_service.py lines 13-27) -/

/-- The keyword suffix appended for authentication-flavoured queries
(rag_service.py line 19). -/
def authSuffix : String := " authentication authorization token jwt api_key"

/-- The keyword suffix appended for endpoint-flavoured queries
(rag_service.py line 21). -/
def endpointSuffix : String := " operationId path method"

/-- The `enhanced_query` computed by `RAGService.get_context`
(rag_service.py lines 17-21).  Note the `elif`: the endpoint branch is
only reached when the auth test fails. -/
def enhancedQuery (query : String) : String :=
  if containsSub (pyLower query) "auth" then query ++ authSuffix
  else if containsSub (pyLower query) "endpoint" then query ++ endpointSuffix
  else query

/-- One result of `VectorStorageService.search_similar`; only its
`"text"` field is consumed by `get_context`, so the payload's other
fields (`metadata`, `score`) are omitted. -/
structure SearchResult where
  text : String
deriving DecidableEq

/-- Models `RAGService.get_context` (rag_service.py lines 13-27): search with
the enhanced query and collect the `"text"` fields; any exception is
caught and degrades to the empty context.  The vector store is
abstracted as the function `search` (its `Except.error` case models
`search_similar` raising). -/
def get_context (search : String → Nat → Except String (List SearchResult))
    (query : String) (k : Nat := 5) : List String :=
  match search (enhancedQuery query) k with
  | .ok results => results.map (·.text)
  | .error _ => []

/-! ## Prompt construction (`RAGService.build_messages`,
rag_service.py lines 49-91) -/

structure ChatMessage where
  role : String
  content : String

/-- The base system prompt of rag_service.py lines 56-68. -/
def systemContentBase : String :=
  "You are an AI assistant helping with OpenAPI specifications. Your role is to:\n1. Provide clear, concise, and natural responses about API endpoints\n2. When describing endpoints, use this format:\n   ```\n   [HTTP METHOD] [PATH]\n   Description: [Brief description]\n   Parameters: [Required parameters]\n   Authentication: [Auth requirements if any]\n   ```\n3. Always include the complete endpoint path\n4. Format code blocks and endpoints with markdown backticks\n5. Use proper spacing and formatting for readability\n6. Ask clarifying questions when needed"

/-- The CLI-formatting suffix of rag_service.py lines 72-80. -/
def cliFormattingSuffix : String :=
  "\n7. Format your response for CLI display:\n   - Use markdown headers (# ## ###) for sections\n   - Use bullet points (- or *) for lists\n   - Use `code` for endpoint paths, parameters, and values\n   - Use ```language``` for code blocks\n   - Use **bold** for important terms\n   - Use > for notable information\n   - Add empty lines between sections for readability"

/-- Models `RAGService.build_messages` (rag_service.py lines 49-91). -/
def build_messages (query : String) (context : List String)
    (is_cli : Bool := true) : List ChatMessage :=
  let cleaned_context := clean_context context
  let context_str :=
    if cleaned_context.isEmpty then "No relevant context found."
    else String.intercalate "\n" cleaned_context
  let system_content :=
    systemContentBase ++ (if is_cli then cliFormattingSuffix else "")
  let system_msg : ChatMessage :=
    ⟨"system", system_content ++
      "\n\nUse the provided OpenAPI specification context to guide your responses."⟩
  let user_msg : ChatMessage :=
    ⟨"user", "Using this OpenAPI specification context:\n\n" ++ context_str ++
      "\n\nQuestion: " ++ query⟩
  [system_msg, user_msg]

/-! ## Response generation (`RAGService.generate_response`,
rag_service.py lines 93-133) -/

/-- The observable behaviour of the Completion Gateway for one query:
`enterErr` is the exception `llm.__aenter__` raises (if any), `tokens`
the fragments `stream_chat_completion` yields for given messages, and
`streamErr` the exception the stream raises after its tokens (if any). -/
structure LLMBehavior where
  enterErr : Option String
  tokens : List ChatMessage → List String
  streamErr : List ChatMessage → Option String

/-- rag_service.py line 99. -/
def noContextMsg : String :=
  "I couldn't find relevant information in the OpenAPI specification to answer your question. Could you please try rephrasing your question or being more specific?"

/-- The fixed set of overly broad phrasings of rag_service.py line 103. -/
def broadQueryPhrasings : List String :=
  ["what endpoints are available?", "what endpoints are there?", "show me the endpoints", "list endpoints"]

/-- rag_service.py line 104. -/
def broadQueryMsg : String :=
  "I can see there are many endpoints available. To help you better, could you please specify what type of endpoints you're interested in? For example:\n\n- Authentication endpoints\n- Data management endpoints\n- Specific resource endpoints (e.g., users, orders)\n- Specific operations (e.g., search, create, update)"

/-- rag_service.py line 109. -/
def manyEndpointsMsg : String :=
  "I notice there are quite a few endpoints that might be relevant. To provide you with the most helpful information, could you please:\n\n1. Specify the type of operation you're interested in (e.g., GET, POST, PUT)\n2. Indicate the resource type you're looking for\n3. Mention any specific functionality you need"

/-- rag_service.py line 133. -/
def errorResponseMsg (e : String) : String :=
  "I encountered an error while generating the response: " ++ e

/-- Models `RAGService.generate_response` (rag_service.py lines 93-133) as a
function from the query and the behaviour of the two collaborators to
the pair (fragments yielded to the caller, whether the generation phase
— lines 116-130, the Completion Gateway call — was reached).  The
catch-all `except` of lines 131-133 turns an exception from
`llm.__aenter__` or from the token stream into one final
`errorResponseMsg` fragment; a stream exception interrupts the loop
before the trailing flush, so a partial buffer is dropped. -/
def generate_response (search : String → Nat → Except String (List SearchResult))
    (llm : LLMBehavior) (query : String) : List String × Bool :=
  let context := get_context search query
  if context = [] then ([noContextMsg], false)
  else if broadQueryPhrasings.contains (pyStrip (pyLower query)) then
    ([broadQueryMsg], false)
  else if decide (context.length > 5) &&
      context.any (fun c => containsSub (pyLower c) "endpoint") then
    ([manyEndpointsMsg], false)
  else
    let messages := build_messages query context
    match llm.enterErr with
    | some e => ([errorResponseMsg e], true)
    | none =>
      match llm.streamErr messages with
      | none => (rebufferResponse (llm.tokens messages), true)
      | some e =>
        (orchestratorGoInterrupted [] (llm.tokens messages) ++ [errorResponseMsg e], true)

/-- An LLM behaviour that yields nothing and never raises (used as a
placeholder where the gateway is provably never consulted). -/
def noLLM : LLMBehavior := ⟨none, fun _ => [], fun _ => none⟩

/-! ## Point id generation (`VectorStorageService._generate_point_id`,
vector_storage.py lines 94-98) -/

/-- Computes `abs(hash(f"{spec_id}_{chunk_id}")) + 1`, with Python's
process-dependent `hash` abstracted as an arbitrary integer-valued
function. -/
def _generate_point_id (hashFn : String → ℤ) (spec_id chunk_id : String) : ℤ :=
  |hashFn (spec_id ++ "_" ++ chunk_id)| + 1

/-! ## JSON values and `json.dumps(..., indent=2)`

`chunking_service.py` serialises document subtrees with
`json.dumps(value, indent=2)`.  Python dicts preserve insertion order, so
objects are association lists.  `dumpsAt k` renders a value whose
children are indented by `k + 2` spaces, exactly as `json.dumps` does at
nesting depth `k / 2`; common control characters are escaped. -/

inductive Json where
  | null
  | bool (b : Bool)
  | num (n : Int)
  | str (s : String)
  | arr (elems : List Json)
  | obj (entries : List (String × Json))

def escapeChar (c : Char) : String :=
  if c = '\\' then "\\\\"
  else if c = '"' then "\\\""
  else if c = '\n' then "\\n"
  else if c = '\t' then "\\t"
  else if c = '\x0d' then "\\r"
  else String.singleton c

def escapeString (s : String) : String := concatStrs (s.data.map escapeChar)

def indentSp (k : Nat) : String := String.mk (List.replicate k ' ')

mutual

def dumpsAt : Nat → Json → String
  | _, .null => "null"
  | _, .bool true => "true"
  | _, .bool false => "false"
  | _, .num n => toString n
  | _, .str s => "\"" ++ escapeString s ++ "\""
  | _, .arr [] => "[]"
  | k, .arr (e :: es) =>
    "[\n" ++ dumpsArrItems (k + 2) e es ++ "\n" ++ indentSp k ++ "]"
  | _, .obj [] => "\x7b\x7d"
  | k, .obj (kv :: kvs) =>
    "\x7b\n" ++ dumpsObjItems (k + 2) kv kvs ++ "\n" ++ indentSp k ++ "\x7d"
termination_by _ v => sizeOf v

def dumpsArrItems : Nat → Json → List Json → String
  | k, e, [] => indentSp k ++ dumpsAt k e
  | k, e, e2 :: es => indentSp k ++ dumpsAt k e ++ ",\n" ++ dumpsArrItems k e2 es
termination_by _ e es => 1 + sizeOf e + sizeOf es

def dumpsObjItems : Nat → (String × Json) → List (String × Json) → String
  | k, (key, v), [] =>
    indentSp k ++ "\"" ++ escapeString key ++ "\": " ++ dumpsAt k v
  | k, (key, v), kv2 :: kvs =>
    indentSp k ++ "\"" ++ escapeString key ++ "\": " ++ dumpsAt k v ++ ",\n" ++
      dumpsObjItems k kv2 kvs
termination_by _ kv kvs => 1 + sizeOf kv + sizeOf kvs

end

def dumps (v : Json) : String := dumpsAt 0 v

structure ChunkMetadata where
  spec_id : String
  chunk_id : String
  path : Option String := none
  method : Option String := none
  component_type : Option String := none
  component_name : Option String := none
deriving DecidableEq, Repr

def httpMethods : List String := ["get", "post", "put", "delete", "patch"]

def lookupKey (kvs : List (String × Json)) (key : String) : Option Json :=
  match kvs.find? (fun kv => kv.1 == key) with
  | some kv => some kv.2
  | none => none

def Json.items : Json → Except String (List (String × Json))
  | .obj kvs => .ok kvs
  | _ => .error "AttributeError: object has no attribute items"

def Json.objEntries : Json → List (String × Json)
  | .obj kvs => kvs
  | _ => []

def isObjB : Json → Bool
  | .obj _ => true
  | _ => false

def pathOperationChunks (spec_id path : String) (ops : List (String × Json)) :
    List (String × ChunkMetadata) :=
  ops.filterMap fun (m, op) =>
    if httpMethods.contains m then
      some (dumps op,
        { spec_id, chunk_id := spec_id ++ "_path_" ++ path ++ "_" ++ m,
          path := some path, method := some m })
    else none

def pathsChunks (spec_id : String) :
    List (String × Json) → Except String (List (String × ChunkMetadata))
  | [] => .ok []
  | (path, path_spec) :: rest => do
    let ops ← path_spec.items
    let more ← pathsChunks spec_id rest
    pure (pathOperationChunks spec_id path ops ++ more)

def componentCategoryChunks (spec_id ctype : String)
    (comps : List (String × Json)) : List (String × ChunkMetadata) :=
  comps.map fun (cname, cspec) =>
    (dumps cspec,
     { spec_id, chunk_id := spec_id ++ "_component_" ++ ctype ++ "_" ++ cname,
       component_type := some ctype, component_name := some cname })

def componentsChunks (spec_id : String) :
    List (String × Json) → Except String (List (String × ChunkMetadata))
  | [] => .ok []
  | (ctype, comps) :: rest => do
    let entries ← comps.items
    let more ← componentsChunks spec_id rest
    pure (componentCategoryChunks spec_id ctype entries ++ more)

def infoChunks (spec : List (String × Json)) (spec_id : String) :
    List (String × ChunkMetadata) :=
  match lookupKey spec "info" with
  | some infoVal =>
    [(dumps infoVal,
      { spec_id, chunk_id := spec_id ++ "_info", component_type := some "info" })]
  | none => []

def chunk_specification (spec : List (String × Json)) (spec_id : String) :
    Except String (List (String × ChunkMetadata)) := do
  let pathPart ← match lookupKey spec "paths" with
    | some pathsVal => do
        let entries ← pathsVal.items
        pathsChunks spec_id entries
    | none => pure []
  let componentPart ← match lookupKey spec "components" with
    | some compsVal => do
        let cats ← compsVal.items
        componentsChunks spec_id cats
    | none => pure []
  pure (infoChunks spec spec_id ++ pathPart ++ componentPart)

def chunkSequenceSpec (spec : List (String × Json)) (spec_id : String) :
    List (String × ChunkMetadata) :=
  (match lookupKey spec "info" with
   | some infoVal =>
     [(dumps infoVal,
       { spec_id, chunk_id := spec_id ++ "_info", component_type := some "info" })]
   | none => []) ++
  ((lookupKey spec "paths").elim [] fun p =>
     p.objEntries.flatMap fun (path, path_spec) =>
       path_spec.objEntries.filterMap fun (m, op) =>
         if httpMethods.contains m then
           some (dumps op,
             { spec_id, chunk_id := spec_id ++ "_path_" ++ path ++ "_" ++ m,
               path := some path, method := some m })
         else none) ++
  ((lookupKey spec "components").elim [] fun c =>
     c.objEntries.flatMap fun (ctype, comps) =>
       comps.objEntries.map fun (cname, cspec) =>
         (dumps cspec,
          { spec_id, chunk_id := spec_id ++ "_component_" ++ ctype ++ "_" ++ cname,
            component_type := some ctype, component_name := some cname }))

def pathsWellFormed (spec : List (String × Json)) : Bool :=
  match lookupKey spec "paths" with
  | none => true
  | some p => isObjB p && p.objEntries.all fun e => isObjB e.2

def componentsWellFormed (spec : List (String × Json)) : Bool :=
  match lookupKey spec "components" with
  | none => true
  | some c => isObjB c && c.objEntries.all fun e => isObjB e.2

/-- The end-to-end example document of the specification: an info
section, two paths of one verb each, and one schema component. -/
def exampleSpec : List (String × Json) :=
  [("openapi", .str "3.0.0"),
   ("info", .obj [("title", .str "Pet Store"), ("version", .str "1.0.0")]),
   ("paths", .obj
     [("/pets", .obj [("get", .obj [("summary", .str "List pets")])]),
      ("/users", .obj [("post", .obj [("summary", .str "Create user")])])]),
   ("components", .obj
     [("schemas", .obj [("Pet", .obj [("type", .str "object")])])])]

/-! ## Document parsing (`FileService.parse_openapi_spec`,
file_service.py lines 58-116) -/

/-- The information `parse_openapi_spec` extracts on success: which
encoding parsed, and the `title`/`version`/`description` values of the
info section — each possibly absent, of arbitrary JSON type
(file_service.py lines 102-107). -/
structure ParsedSpecInfo where
  content_type : String
  title : Option Json
  version : Option Json
  description : Option Json

/-- Failure modes of `parse_openapi_spec`: `formatError` is the
user-fixable HTTP 400 (the spec's `FormatError`), `processingError` the
generic HTTP 500 that re-wraps any other exception (file_service.py
lines 109-116). -/
inductive ParseFailure where
  | formatError (detail : String)
  | processingError

/-- Validation and extraction on the decoded value (file_service.py
lines 81-107): reject non-mappings and mappings lacking `"openapi"`
with a 400; then `spec.get("info", {}).get("title")` — when the
info value is present but is not itself a mapping, the `.get` call
raises `AttributeError`, which the catch-all turns into the 500. -/
def validateSpec (spec : Json) (content_type : String) :
    Except ParseFailure ParsedSpecInfo :=
  match spec with
  | .obj kvs =>
    if (lookupKey kvs "openapi").isSome then
      match (lookupKey kvs "info").getD (.obj []) with
      | .obj ikvs =>
        .ok ⟨content_type, lookupKey ikvs "title", lookupKey ikvs "version",
          lookupKey ikvs "description"⟩
      | _ => .error .processingError
    else .error (.formatError "File is not a valid OpenAPI specification")
  | _ => .error (.formatError "OpenAPI spec must be a JSON/YAML object")

/-- Models `FileService.parse_openapi_spec` (file_service.py lines 58-116),
with the two decoders abstracted: `jsonDec` models `json.loads` (`none`
standing for `JSONDecodeError`), `yamlDec` models `yaml.safe_load`
(`none` standing for `YAMLError`).  JSON is attempted first; YAML only
on JSON failure. -/
def parse_openapi_spec (jsonDec yamlDec : String → Option Json)
    (content : String) : Except ParseFailure ParsedSpecInfo :=
  match jsonDec content with
  | some spec => validateSpec spec "json"
  | none =>
    match yamlDec content with
    | some spec => validateSpec spec "yaml"
    | none => .error (.formatError "File is neither valid JSON nor YAML")

/-- Decision of whether a parse outcome is the spec's `FormatError`. -/
def isFormatError {α : Type} : Except ParseFailure α → Bool
  | .error (.formatError _) => true
  | _ => false

/-! ## Collection size estimate
(`VectorStorageService.get_collection_size`, vector_storage.py lines
298-386)

Modelled over `ℚ`: the source computes with Python floats, and its
`round(x, 2)` is modelled by `round2` below (Mathlib's `round`, i.e.
half-up, against Python's half-even on binary floats — the claims at
stake involve no ties).  The uploads directory is abstracted as the
list of its files' parse outcomes (`none` for an unparseable file). -/

/-- Python `len()` on a decoded JSON value: defined for mappings,
sequences and strings; a `TypeError` (modelled `none`) otherwise. -/
def pyLen : Json → Option ℕ
  | .obj kvs => some kvs.length
  | .arr es => some es.length
  | .str s => some s.length
  | _ => none

/-- The per-file chunk estimate of vector_storage.py lines 333-340:
`len(spec.get('paths', {})) * 3 +
len(spec.get('components', {}).get('schemas', {})) * 2`;
any exception (non-mapping spec or components, un-`len`-able values)
makes the file be skipped (`none`). -/
def estimatedChunksOfSpec : Json → Option ℕ
  | .obj kvs =>
    match pyLen ((lookupKey kvs "paths").getD (.obj [])) with
    | none => none
    | some paths =>
      match (lookupKey kvs "components").getD (.obj []) with
      | .obj ckvs =>
        match pyLen ((lookupKey ckvs "schemas").getD (.obj [])) with
        | none => none
        | some components => some (paths * 3 + components * 2)
      | _ => none
  | _ => none

/-- Sum of the estimates over the upload directory's files, skipping
files that fail to parse or to estimate (vector_storage.py lines
327-345). -/
def totalEstimatedChunks (files : List (Option Json)) : ℕ :=
  (files.filterMap fun f => f.bind estimatedChunksOfSpec).sum

/-- The size breakdown returned by `get_collection_size`. -/
structure SizeBreakdown where
  total : ℚ
  vectors : ℚ
  index : ℚ
  metadata : ℚ

/-- Python `round(x, 2)`. -/
def round2 (q : ℚ) : ℚ := (round (q * 100) : ℤ) / 100

/-- Models `bytes_to_mb` of vector_storage.py line 350:
`round(x / (1024 * 1024), 2)`. -/
def bytesToMb (x : ℚ) : ℚ := round2 (x / (1024 * 1024))

/-- Models `VectorStorageService.get_collection_size` (vector_storage.py lines
298-386): `dim` is the configured `settings.VECTOR_DIMENSION` (default
384). -/
def get_collection_size (dim : ℕ) (uploadDirExists : Bool)
    (files : List (Option Json)) : SizeBreakdown :=
  if !uploadDirExists then ⟨1/100, 1/100, 0, 0⟩
  else
    let total_chunks := totalEstimatedChunks files
    let vector_bytes : ℚ := total_chunks * dim * 4
    let vectors_size := bytesToMb vector_bytes
    let index_size := bytesToMb (vector_bytes * (1/10))
    let metadata_size := bytesToMb (total_chunks * 500)
    let total_size := vectors_size + index_size + metadata_size
    if total_chunks = 0 then ⟨1/100, 1/100, 0, 0⟩
    else ⟨round2 total_size, round2 vectors_size, round2 index_size,
      round2 metadata_size⟩

/-- A document with ten path entries of one `get` operation each (and
no info section or components), whose chunking yields 10 chunks while
the upload-directory heuristic estimates 30. -/
def tenPathsSpec : List (String × Json) :=
  [("openapi", .str "3.0.0"),
   ("paths", .obj
     [("/p0", .obj [("get", .obj [])]), ("/p1", .obj [("get", .obj [])]),
      ("/p2", .obj [("get", .obj [])]), ("/p3", .obj [("get", .obj [])]),
      ("/p4", .obj [("get", .obj [])]), ("/p5", .obj [("get", .obj [])]),
      ("/p6", .obj [("get", .obj [])]), ("/p7", .obj [("get", .obj [])]),
      ("/p8", .obj [("get", .obj [])]), ("/p9", .obj [("get", .obj [])])])]

end ChatOpenAPI

namespace ChatOpenAPI

/-! # Theorems -/

/-! ## Character-level facts -/

theorem concatStrs_cons (s : String) (l : List String) :
    concatStrs (s :: l) = s ++ concatStrs l := rfl

theorem char_toNat_ofNat_valid (m : ℕ) (h : m.isValidChar) :
    (Char.ofNat m).toNat = m := by
  simp [Char.ofNat, h, Char.ofNatAux, Char.toNat, UInt32.toNat, BitVec.toNat_ofNatLt]

theorem isWhitespace_toNat_le {d : Char} (h : d.isWhitespace = true) :
    d.toNat ≤ 32 := by
  simp [Char.isWhitespace] at h
  rcases h with ((h | h) | h) | h <;> subst h <;> decide

/-- Lemma: `Char.toLower` never turns whitespace into non-whitespace or
vice versa. -/
theorem toLower_isWhitespace (c : Char) :
    (Char.toLower c).isWhitespace = c.isWhitespace := by
  by_cases hc : c.toNat ≥ 65 ∧ c.toNat ≤ 90
  · have hv : (c.toNat + 32).isValidChar := Or.inl (by omega)
    have ht : (Char.ofNat (c.toNat + 32)).toNat = c.toNat + 32 :=
      char_toNat_ofNat_valid _ hv
    have h1 : (Char.ofNat (c.toNat + 32)).isWhitespace = false := by
      cases hw : (Char.ofNat (c.toNat + 32)).isWhitespace
      · rfl
      · have := isWhitespace_toNat_le hw; omega
    have h2 : c.isWhitespace = false := by
      cases hw : c.isWhitespace
      · rfl
      · have := isWhitespace_toNat_le hw; omega
    simp [Char.toLower, hc, h1, h2]
  · simp [Char.toLower, hc]

theorem toLower_space : Char.toLower ' ' = ' ' := by decide

/-! ## Re-buffering preserves content (C1) -/

theorem concatStrs_append (l₁ l₂ : List String) :
    concatStrs (l₁ ++ l₂) = concatStrs l₁ ++ concatStrs l₂ := by
  induction l₁ with
  | nil => simp [concatStrs]
  | cons s rest ih => simp [concatStrs, ih, String.append_assoc]

theorem concatStrs_gatewayGo (buf l : List String) :
    concatStrs (gatewayGo buf l) = concatStrs buf ++ concatStrs l := by
  induction l generalizing buf with
  | nil =>
    simp only [gatewayGo]
    split
    · next h => simp [List.isEmpty_iff.mp h, concatStrs]
    · simp [concatStrs]
  | cons f rest ih =>
    simp only [gatewayGo]
    split
    · next hf => rw [ih]; simp [hf, concatStrs]
    · split
      · rw [concatStrs_cons, ih]
        simp [concatStrs_append, concatStrs, String.append_assoc]
      · rw [ih, concatStrs_append]
        simp [concatStrs, String.append_assoc]

theorem concatStrs_orchestratorGo (buf l : List String) :
    concatStrs (orchestratorGo buf l) = concatStrs buf ++ concatStrs l := by
  induction l generalizing buf with
  | nil =>
    simp only [orchestratorGo]
    split
    · next h => simp [List.isEmpty_iff.mp h, concatStrs]
    · simp [concatStrs]
  | cons t rest ih =>
    simp only [orchestratorGo]
    split
    · rw [concatStrs_cons, ih]
      simp [concatStrs_append, concatStrs, String.append_assoc]
    · rw [ih, concatStrs_append]
      simp [concatStrs, String.append_assoc]

/-- C1: for every finite sequence of raw token fragments delivered by the
remote stream and terminated by the completion signal, concatenating every
fragment yielded after both the Completion Gateway re-buffer (flush at
≥ 20 chars or sentence-terminal/newline in the latest fragment, final
flush on completion) and the RAG Orchestrator re-buffer (flush at ≥ 100
chars or sentence-terminal/newline) equals, byte for byte, the
concatenation of the raw fragments. -/
theorem stream_rebuffer_preserves_content (frags : List String) :
    concatStrs (rebufferResponse (stream_chat_completion frags)) =
      concatStrs frags := by
  unfold rebufferResponse stream_chat_completion
  rw [concatStrs_orchestratorGo, concatStrs_gatewayGo]
  rfl

/-! ## Whitespace collapsing and keyword preservation (toward C10) -/

theorem wordsGo_wsFree :
    ∀ (l cur : List Char), (∀ c ∈ cur, c.isWhitespace = false) →
      ∀ w ∈ wordsGo cur l, w ≠ [] ∧ ∀ c ∈ w, c.isWhitespace = false := by
  intro l
  induction l with
  | nil =>
    intro cur hcur w hw
    simp only [wordsGo] at hw
    split at hw
    · simp at hw
    · next h => simp at hw; exact hw ▸ ⟨h, hcur⟩
  | cons c cs ih =>
    intro cur hcur w hw
    simp only [wordsGo] at hw
    split at hw
    · split at hw
      · exact ih [] (by simp) w hw
      · next hne =>
        rcases List.mem_cons.mp hw with h | h
        · exact h ▸ ⟨hne, hcur⟩
        · exact ih [] (by simp) w h
    · next hws =>
      refine ih (cur ++ [c]) ?_ w hw
      intro d hd
      rcases List.mem_append.mp hd with h | h
      · exact hcur d h
      · simp at h; subst h; simpa using hws

theorem wordsGo_append_word (w : List Char) (hw : ∀ c ∈ w, c.isWhitespace = false) :
    ∀ (cur l : List Char), wordsGo cur (w ++ l) = wordsGo (cur ++ w) l := by
  induction w with
  | nil => intro cur l; simp
  | cons c w' ih =>
    intro cur l
    have hc : c.isWhitespace = false := hw c (by simp)
    simp only [List.cons_append, wordsGo, hc, Bool.false_eq_true, if_false]
    simpa using ih (fun d hd => hw d (by simp [hd])) (cur ++ [c]) l

theorem wordsGo_joinSpace :
    ∀ (ws : List (List Char)),
      (∀ w ∈ ws, w ≠ [] ∧ ∀ c ∈ w, c.isWhitespace = false) →
      wordsGo [] (joinSpace ws) = ws := by
  intro ws
  induction ws with
  | nil => intro _; rfl
  | cons w rest ih =>
    intro h
    obtain ⟨hne, hfree⟩ := h w (by simp)
    cases rest with
    | nil =>
      simp only [joinSpace]
      rw [show w = w ++ [] by simp, wordsGo_append_word w hfree [] []]
      simp [wordsGo, hne]
    | cons w2 r =>
      simp only [joinSpace]
      rw [wordsGo_append_word w hfree [] (' ' :: joinSpace (w2 :: r))]
      have hsp : (' ').isWhitespace = true := by decide
      simp only [List.nil_append, wordsGo, hsp, if_true, if_neg hne]
      rw [ih (fun x hx => h x (by simp [hx]))]

theorem prefix_append_cons_notMem {kw : List Char} {c : Char} (hc : c ∉ kw) :
    ∀ {cur cs : List Char}, kw <+: cur ++ c :: cs → kw <+: cur := by
  intro cur
  induction cur generalizing kw with
  | nil =>
    intro cs h
    cases kw with
    | nil => exact List.nil_prefix
    | cons k kw' =>
      obtain ⟨hk, _⟩ := List.cons_prefix_cons.mp h
      exact absurd (hk ▸ List.mem_cons_self k kw') hc
  | cons a cur' ih =>
    intro cs h
    cases kw with
    | nil => exact List.nil_prefix
    | cons k kw' =>
      obtain ⟨hk, htl⟩ := List.cons_prefix_cons.mp h
      subst hk
      have hc' : c ∉ kw' := fun hmem => hc (List.mem_cons_of_mem _ hmem)
      exact List.cons_prefix_cons.mpr ⟨rfl, ih hc' htl⟩

theorem infix_append_cons_notMem {kw : List Char} {c : Char} (hc : c ∉ kw) :
    ∀ {cur cs : List Char}, kw <:+: cur ++ c :: cs → kw <:+: cur ∨ kw <:+: cs := by
  intro cur
  induction cur with
  | nil =>
    intro cs h
    rcases List.infix_cons_iff.mp h with h | h
    · have := @prefix_append_cons_notMem _ _ hc [] _ h
      simp only [List.prefix_nil] at this
      exact Or.inr (this ▸ List.nil_infix)
    · exact Or.inr h
  | cons a cur' ih =>
    intro cs h
    rcases List.infix_cons_iff.mp h with h | h
    · exact Or.inl (prefix_append_cons_notMem hc h).isInfix
    · rcases ih h with h | h
      · exact Or.inl (List.infix_cons_iff.mpr (Or.inr h))
      · exact Or.inr h

theorem infix_wordsGo {kw : List Char} (hne : kw ≠ [])
    (hkw : ∀ c ∈ kw, c.isWhitespace = false) :
    ∀ (l cur : List Char), (∀ c ∈ cur, c.isWhitespace = false) →
      kw <:+: (cur ++ l) → ∃ w ∈ wordsGo cur l, kw <:+: w := by
  intro l
  induction l with
  | nil =>
    intro cur hcur h
    rw [List.append_nil] at h
    have hcne : cur ≠ [] := by
      rintro rfl
      exact hne (List.infix_nil.mp h)
    exact ⟨cur, by simp [wordsGo, hcne], h⟩
  | cons c cs ih =>
    intro cur hcur h
    by_cases hws : c.isWhitespace
    · have hcmem : c ∉ kw := fun hm => by
        have := hkw c hm; rw [hws] at this; exact Bool.true_eq_false.mp this
      rcases infix_append_cons_notMem hcmem h with h' | h'
      · have hcne : cur ≠ [] := by
          rintro rfl
          exact hne (List.infix_nil.mp h')
        exact ⟨cur, by simp [wordsGo, hws, hcne], h'⟩
      · obtain ⟨w, hwmem, hwin⟩ := ih [] (by simp) (by simpa using h')
        refine ⟨w, ?_, hwin⟩
        simp only [wordsGo, hws, if_true]
        split
        · exact hwmem
        · exact List.mem_cons_of_mem _ hwmem
    · have hcur' : ∀ d ∈ cur ++ [c], d.isWhitespace = false := by
        intro d hd
        rcases List.mem_append.mp hd with h' | h'
        · exact hcur d h'
        · simp at h'; subst h'; simpa using hws
      have h' : kw <:+: (cur ++ [c]) ++ cs := by
        simpa [List.append_assoc] using h
      obtain ⟨w, hwmem, hwin⟩ := ih (cur ++ [c]) hcur' h'
      refine ⟨w, ?_, hwin⟩
      simpa [wordsGo, hws] using hwmem

theorem mem_infix_joinSpace : ∀ {ws : List (List Char)} {w : List Char},
    w ∈ ws → w <:+: joinSpace ws := by
  intro ws
  induction ws with
  | nil => intro w h; simp at h
  | cons w' rest ih =>
    intro w hmem
    cases rest with
    | nil =>
      simp at hmem
      subst hmem
      simp [joinSpace]
    | cons w2 r =>
      rcases List.mem_cons.mp hmem with h | h
      · subst h
        exact (List.prefix_append w (' ' :: joinSpace (w2 :: r))).isInfix
      · refine (ih h).trans ?_
        have : joinSpace (w2 :: r) <:+ w' ++ ' ' :: joinSpace (w2 :: r) :=
          ((List.suffix_cons ' ' _).trans (List.suffix_append w' _))
        exact this.isInfix

theorem wordsGo_map (f : Char → Char) (hf : ∀ c, (f c).isWhitespace = c.isWhitespace) :
    ∀ (l cur : List Char),
      wordsGo (cur.map f) (l.map f) = (wordsGo cur l).map (List.map f) := by
  intro l
  induction l with
  | nil =>
    intro cur
    by_cases hcur : cur = []
    · simp [wordsGo, hcur]
    · simp [wordsGo, hcur, List.map_eq_nil_iff]
  | cons c cs ih =>
    intro cur
    by_cases hws : c.isWhitespace
    · by_cases hcur : cur = []
      · simp only [wordsGo, hf c, hws, if_true, hcur, List.map_nil]
        simpa using ih []
      · simp only [wordsGo, hf c, hws, if_true, List.map_cons]
        rw [if_neg (by simpa [List.map_eq_nil_iff] using hcur), if_neg hcur]
        simp only [List.map_cons]
        rw [show (wordsGo [] (List.map f cs)) = ((wordsGo [] cs).map (List.map f)) by simpa using ih []]
    · have h2 := ih (cur ++ [c])
      simp only [List.map_append, List.map_cons, List.map_nil] at h2
      simp only [wordsGo, hf c, hws, Bool.false_eq_true, if_false]
      exact h2

theorem joinSpace_map (f : Char → Char) (hsp : f ' ' = ' ') :
    ∀ ws, joinSpace (ws.map (List.map f)) = (joinSpace ws).map f := by
  intro ws
  induction ws with
  | nil => rfl
  | cons w rest ih =>
    cases rest with
    | nil => rfl
    | cons w2 r =>
      simp only [List.map_cons, joinSpace, List.map_append]
      rw [← ih]
      simp [hsp]

theorem chWords_collapseWs (s : String) : chWords (collapseWs s).data = chWords s.data :=
  wordsGo_joinSpace _ (wordsGo_wsFree s.data [] (by simp))

theorem collapseWs_collapseWs (s : String) : collapseWs (collapseWs s) = collapseWs s := by
  show (⟨joinSpace (chWords (collapseWs s).data)⟩ : String) = (⟨joinSpace (chWords s.data)⟩ : String)
  rw [chWords_collapseWs]

theorem pyWordCount_collapseWs (s : String) : pyWordCount (collapseWs s) = pyWordCount s :=
  congrArg List.length (chWords_collapseWs s)

theorem pyLower_collapseWs (s : String) : pyLower (collapseWs s) = collapseWs (pyLower s) := by
  have h1 : wordsGo [] (s.data.map Char.toLower) = (wordsGo [] s.data).map (List.map Char.toLower) := by
    simpa using wordsGo_map Char.toLower toLower_isWhitespace s.data []
  show (⟨(joinSpace (wordsGo [] s.data)).map Char.toLower⟩ : String)
      = (⟨joinSpace (wordsGo [] (s.data.map Char.toLower))⟩ : String)
  rw [h1, joinSpace_map Char.toLower toLower_space]

theorem listContainsSub_iff (needle hay : List Char) :
    listContainsSub needle hay = true ↔ needle <:+: hay := by
  induction hay with
  | nil => simp [listContainsSub, List.infix_nil, List.isEmpty_iff]
  | cons c rest ih =>
    simp [listContainsSub, List.isPrefixOf_iff_prefix, ih, List.infix_cons_iff]

theorem containsSub_collapseWs_of_containsSub {s kw : String} (hne : kw.data ≠ [])
    (hfree : ∀ c ∈ kw.data, c.isWhitespace = false)
    (h : containsSub (pyLower s) kw = true) :
    containsSub (pyLower (collapseWs s)) kw = true := by
  rw [pyLower_collapseWs]
  rw [containsSub, listContainsSub_iff] at h ⊢
  obtain ⟨w, hwmem, hwin⟩ :=
    infix_wordsGo hne hfree (pyLower s).data [] (by simp) (by simpa using h)
  exact hwin.trans (mem_infix_joinSpace hwmem)

theorem keywords_wf :
    ∀ kw ∈ apiContentKeywords ++ apiRelatedKeywords,
      kw.data ≠ [] ∧ ∀ c ∈ kw.data, c.isWhitespace = false := by decide

theorem kwAny_collapseWs {kws : List String}
    (hk : ∀ kw ∈ kws, kw.data ≠ [] ∧ ∀ c ∈ kw.data, c.isWhitespace = false)
    {s : String} (h : kwAny kws s = true) : kwAny kws (collapseWs s) = true := by
  simp only [kwAny, List.any_eq_true] at h ⊢
  obtain ⟨kw, hmem, hc⟩ := h
  exact ⟨kw, hmem,
    containsSub_collapseWs_of_containsSub (hk kw hmem).1 (hk kw hmem).2 hc⟩

theorem keepContext_collapseWs {x : String} (h : keepContext x = true) :
    keepContext (collapseWs x) = true := by
  unfold keepContext at h ⊢
  rcases Bool.or_eq_true_iff.mp h with h1 | h2
  · exact Bool.or_eq_true_iff.mpr
      (Or.inl (kwAny_collapseWs (fun kw hm => keywords_wf kw (List.mem_append_left _ hm)) h1))
  · refine Bool.or_eq_true_iff.mpr (Or.inr ?_)
    rw [Bool.not_eq_true', Bool.and_eq_false_iff] at h2 ⊢
    rcases h2 with h2 | h2
    · left
      simp only [decide_eq_false_iff_not, not_lt] at h2 ⊢
      rwa [pyWordCount_collapseWs]
    · right
      have h2' : kwAny apiRelatedKeywords x = true := by
        cases hb : kwAny apiRelatedKeywords x
        · rw [hb] at h2; simp at h2
        · rfl
      have := kwAny_collapseWs
        (fun kw hm => keywords_wf kw (List.mem_append_right _ hm)) h2'
      simp [this]

theorem keepContext_of_branches {x : String}
    (h : kwAny apiContentKeywords x = true ∨
      (decide (pyWordCount x > 100) && !kwAny apiRelatedKeywords x) = false) :
    keepContext x = true := by
  unfold keepContext
  rcases h with h | h
  · simp [h]
  · simp [h]

theorem clean_context_cons_of_stable {y : String} {L : List String}
    (hk : keepContext y = true) (hc : collapseWs y = y) :
    clean_context (y :: L) = y :: clean_context L := by
  by_cases h1 : kwAny apiContentKeywords y = true
  · simp [clean_context, h1, hc]
  · have h2 : (decide (pyWordCount y > 100) && !kwAny apiRelatedKeywords y) = false := by
      unfold keepContext at hk
      rcases Bool.or_eq_true_iff.mp hk with h | h
      · exact absurd h h1
      · rwa [Bool.not_eq_true'] at h
    simp [clean_context, h1, h2, hc]

theorem clean_context_eq_filter_map (l : List String) :
    clean_context l = (l.filter keepContext).map collapseWs := by
  induction l with
  | nil => rfl
  | cons x rest ih =>
    by_cases h1 : kwAny apiContentKeywords x = true
    · have hk : keepContext x = true := keepContext_of_branches (Or.inl h1)
      simp [clean_context, h1, List.filter_cons, hk, ih]
    · by_cases h2 : (decide (pyWordCount x > 100) && !kwAny apiRelatedKeywords x) = true
      · have hk : keepContext x = false := by
          unfold keepContext
          simp only [Bool.or_eq_false_iff]
          exact ⟨Bool.not_eq_true _ ▸ (by simpa using h1), by simp [h2]⟩
        simp [clean_context, h1, h2, List.filter_cons, hk, ih]
      · have hk : keepContext x = true :=
          keepContext_of_branches (Or.inr (Bool.not_eq_true _ ▸ (by simpa using h2)))
        simp [clean_context, h1, h2, List.filter_cons, hk, ih]

theorem clean_context_idem (l : List String) :
    clean_context (clean_context l) = clean_context l := by
  induction l with
  | nil => rfl
  | cons x rest ih =>
    by_cases h1 : kwAny apiContentKeywords x = true
    · have hk : keepContext x = true := keepContext_of_branches (Or.inl h1)
      have : clean_context (x :: rest) = collapseWs x :: clean_context rest := by
        simp [clean_context, h1]
      rw [this, clean_context_cons_of_stable (keepContext_collapseWs hk)
        (collapseWs_collapseWs x), ih]
    · by_cases h2 : (decide (pyWordCount x > 100) && !kwAny apiRelatedKeywords x) = true
      · have : clean_context (x :: rest) = clean_context rest := by
          simp [clean_context, h1, h2]
        rw [this, ih]
      · have hk : keepContext x = true :=
          keepContext_of_branches (Or.inr (by simpa using h2))
        have : clean_context (x :: rest) = collapseWs x :: clean_context rest := by
          simp [clean_context, h1, h2]
        rw [this, clean_context_cons_of_stable (keepContext_collapseWs hk)
          (collapseWs_collapseWs x), ih]

/-- C10: the context-cleaning function is idempotent and order-preserving:
applying `clean_context` twice yields the same list as applying it once,
the kept chunks appear in their original relative order (the output is
exactly the whitespace-collapsed form of the kept inputs, in order), and
the output length is at most the input length. -/
theorem clean_context_idempotent_order_preserving (l : List String) :
    clean_context (clean_context l) = clean_context l ∧
    clean_context l = (l.filter keepContext).map collapseWs ∧
    (clean_context l).length ≤ l.length := by
  refine ⟨clean_context_idem l, clean_context_eq_filter_map l, ?_⟩
  rw [clean_context_eq_filter_map]
  simpa using List.length_filter_le keepContext l

/-! ## Query enrichment (C7) -/

/-- C7 counterexample: the query `"auth endpoint"` contains `"endpoint"`,
yet the enriched retrieval query does not receive the
operation-identifier keywords (it does not even contain `"operationId"`),
because the source tests the two rules with `if`/`elif` and the `"auth"`
branch wins. -/
theorem enrichment_not_both_rules :
    containsSub (pyLower "auth endpoint") "endpoint" = true ∧
    containsSub (enhancedQuery "auth endpoint") "operationId" = false := by
  constructor <;> decide

/-- C7 amended: query enrichment applies the two rules in order with the
endpoint rule reachable only when the auth test fails: if the lowered
query contains `"auth"`, the authentication keywords are appended;
otherwise, if it contains `"endpoint"`, the operation-identifier keywords
are appended; otherwise the query is unchanged. -/
theorem query_enrichment_rules (q : String) :
    (containsSub (pyLower q) "auth" = true → enhancedQuery q = q ++ authSuffix) ∧
    (containsSub (pyLower q) "auth" = false →
      containsSub (pyLower q) "endpoint" = true →
      enhancedQuery q = q ++ endpointSuffix) ∧
    (containsSub (pyLower q) "auth" = false →
      containsSub (pyLower q) "endpoint" = false → enhancedQuery q = q) :=
  ⟨fun h => by simp [enhancedQuery, h],
   fun h1 h2 => by simp [enhancedQuery, h1, h2],
   fun h1 h2 => by simp [enhancedQuery, h1, h2]⟩

/-- Witness for C7: the three branches at concrete queries. -/
theorem query_enrichment_rules_witness :
    enhancedQuery "auth" = "auth" ++ authSuffix ∧
    enhancedQuery "endpoint" = "endpoint" ++ endpointSuffix ∧
    enhancedQuery "hello" = "hello" :=
  ⟨(query_enrichment_rules "auth").1 (by decide),
   (query_enrichment_rules "endpoint").2.1 (by decide) (by decide),
   (query_enrichment_rules "hello").2.2 (by decide) (by decide)⟩

/-! ## Point ids are positive (C9) -/

/-- C9: for every spec_id and chunk_id (and whatever integer the
process hash produces), `_generate_point_id` returns an integer ≥ 1 —
never zero or negative. -/
theorem generate_point_id_positive (hashFn : String → ℤ)
    (spec_id chunk_id : String) :
    1 ≤ _generate_point_id hashFn spec_id chunk_id := by
  unfold _generate_point_id
  have h := abs_nonneg (hashFn (spec_id ++ "_" ++ chunk_id))
  omega

/-! ## Broad-query clarification gate (C5) -/

/-- C5 counterexample: for the broad query `"list endpoints"`, when
retrieval returns no results the empty-context gate (checked first)
yields the rephrase refusal, not the fixed clarification message — so the
clarification is not "always" yielded for the four broad phrasings. -/
theorem broad_query_clarification_counterexample :
    broadQueryPhrasings.contains (pyStrip (pyLower "list endpoints")) = true ∧
    generate_response (fun _ _ => Except.ok []) noLLM "list endpoints" =
      ([noContextMsg], false) ∧
    noContextMsg ≠ broadQueryMsg := by
  refine ⟨by decide, rfl, by decide⟩

/-- C5 amended: for every query whose lower-cased, whitespace-trimmed
form is one of the four fixed broad phrasings, `generate_response` never
reaches the Completion Gateway, and — provided retrieval produced a
non-empty context (the empty-context refusal gate is checked first) — it
yields exactly the fixed clarification message. -/
theorem broad_query_clarification
    (search : String → Nat → Except String (List SearchResult))
    (llm : LLMBehavior) (q : String)
    (hq : broadQueryPhrasings.contains (pyStrip (pyLower q)) = true) :
    (generate_response search llm q).2 = false ∧
    (get_context search q ≠ [] →
      generate_response search llm q = ([broadQueryMsg], false)) := by
  have hq' : pyStrip (pyLower q) ∈ broadQueryPhrasings := by simpa using hq
  unfold generate_response
  by_cases hctx : get_context search q = []
  · simp [hctx]
  · simp [hctx, hq']

/-- Witness for C5: `"LIST ENDPOINTS"` with one retrieved chunk yields
the clarification message and no generation call. -/
theorem broad_query_clarification_witness :
    generate_response (fun _ _ => Except.ok [⟨"the GET /pets operation"⟩])
      noLLM "LIST ENDPOINTS" = ([broadQueryMsg], false) :=
  (broad_query_clarification (fun _ _ => Except.ok [⟨"the GET /pets operation"⟩])
    noLLM "LIST ENDPOINTS" (by decide)).2 (by decide)

/-! ## Error handling in `generate_response` (C2) -/

/-- C2 counterexample: an exception raised during retrieval is swallowed
inside `get_context` (which returns the empty context), so
`generate_response` yields the rephrase refusal — not an
error-explanation fragment (every error-explanation fragment starts with
`"I encountered an error while generating the response: "`, which the
yielded fragment does not). -/
theorem retrieval_error_yields_refusal_not_error :
    generate_response (fun _ _ => Except.error "connection refused") noLLM
      "what does GET /pets do?" = ([noContextMsg], false) ∧
    noContextMsg ≠ errorResponseMsg "connection refused" ∧
    List.isPrefixOf
      "I encountered an error while generating the response: ".data
      noContextMsg.data = false := by
  refine ⟨rfl, by decide, by decide⟩

/-- C2 amended: `generate_response` never lets an exception escape, but
the conversion differs by stage: (1) a retrieval exception degrades to
the empty context and yields the rephrase refusal (no error-explanation
fragment); (2) an exception entering the Completion Gateway, once all
gates pass, yields exactly the single error-explanation fragment; (3) an
exception from the token stream, once all gates pass, terminates the
stream with the loop's flushed fragments followed by exactly one final
error-explanation fragment (the partial buffer is dropped). -/
theorem generate_response_error_contract
    (search : String → Nat → Except String (List SearchResult))
    (llm : LLMBehavior) (q e : String) :
    (generate_response (fun _ _ => Except.error e) llm q =
      ([noContextMsg], false)) ∧
    (get_context search q ≠ [] →
      broadQueryPhrasings.contains (pyStrip (pyLower q)) = false →
      (decide ((get_context search q).length > 5) &&
        (get_context search q).any
          (fun c => containsSub (pyLower c) "endpoint")) = false →
      llm.enterErr = some e →
      generate_response search llm q = ([errorResponseMsg e], true)) ∧
    (get_context search q ≠ [] →
      broadQueryPhrasings.contains (pyStrip (pyLower q)) = false →
      (decide ((get_context search q).length > 5) &&
        (get_context search q).any
          (fun c => containsSub (pyLower c) "endpoint")) = false →
      llm.enterErr = none →
      llm.streamErr (build_messages q (get_context search q)) = some e →
      generate_response search llm q =
        (orchestratorGoInterrupted []
            (llm.tokens (build_messages q (get_context search q))) ++
          [errorResponseMsg e], true) ∧
      (generate_response search llm q).1.getLast? = some (errorResponseMsg e)) := by
  refine ⟨rfl, ?_, ?_⟩
  · intro hctx hbroad hmany henter
    have hbroad' : pyStrip (pyLower q) ∉ broadQueryPhrasings := by simpa using hbroad
    have hmany' : ¬(5 < (get_context search q).length ∧
        ∃ x ∈ get_context search q, containsSub (pyLower x) "endpoint" = true) := by
      simpa using hmany
    unfold generate_response
    simp [hctx, hbroad', hmany', henter]
  · intro hctx hbroad hmany henter hstream
    have hbroad' : pyStrip (pyLower q) ∉ broadQueryPhrasings := by simpa using hbroad
    have hmany' : ¬(5 < (get_context search q).length ∧
        ∃ x ∈ get_context search q, containsSub (pyLower x) "endpoint" = true) := by
      simpa using hmany
    have hout : generate_response search llm q =
        (orchestratorGoInterrupted []
            (llm.tokens (build_messages q (get_context search q))) ++
          [errorResponseMsg e], true) := by
      unfold generate_response
      simp [hctx, hbroad', hmany', henter, hstream]
    exact ⟨hout, by rw [hout]; simp⟩

/-- Witness for C2: a stream that yields one short token and then raises
produces exactly the final error-explanation fragment. -/
theorem generate_response_error_contract_witness :
    generate_response (fun _ _ => Except.ok [⟨"GET /pets: list pets"⟩])
      ⟨none, fun _ => ["Hel"], fun _ => some "connection reset"⟩
      "describe /pets" =
      (orchestratorGoInterrupted []
          ((fun (_ : List ChatMessage) => ["Hel"])
            (build_messages "describe /pets"
              (get_context (fun _ _ => Except.ok [⟨"GET /pets: list pets"⟩])
                "describe /pets"))) ++
        [errorResponseMsg "connection reset"], true) :=
  ((generate_response_error_contract
      (fun _ _ => Except.ok [⟨"GET /pets: list pets"⟩])
      ⟨none, fun _ => ["Hel"], fun _ => some "connection reset"⟩
      "describe /pets" "connection reset").2.2
    (by decide) (by decide) (by decide) rfl rfl).1

/-! ## Chunker: priority order (C3) and determinism (C4) -/

/-- Reduction lemma: `pure` on `Except` is `Except.ok`. -/
theorem exceptPure_eq_ok {ε α : Type} (a : α) : (pure a : Except ε α) = Except.ok a := rfl

/-- Reduction lemma: binding a successful `Except` applies the
continuation. -/
theorem exceptBind_ok {ε α β : Type} (a : α) (f : α → Except ε β) :
    (Except.ok a : Except ε α) >>= f = f a := rfl

/-- When every path entry's value is a mapping, the paths loop succeeds
and produces, per entry in document order, one chunk per operation keyed
by an HTTP verb. -/
theorem pathsChunks_eq_flatMap (sid : String) :
    ∀ entries : List (String × Json), (entries.all fun e => isObjB e.2) = true →
      pathsChunks sid entries =
        .ok (entries.flatMap fun (path, path_spec) =>
          pathOperationChunks sid path path_spec.objEntries) := by
  intro entries
  induction entries with
  | nil => intro _; rfl
  | cons e rest ih =>
    intro h
    obtain ⟨path, path_spec⟩ := e
    rw [List.all_cons] at h
    obtain ⟨h1, h2⟩ := Bool.and_eq_true_iff.mp h
    cases path_spec with
    | obj kvs =>
      simp only [pathsChunks, Json.items, ih h2, Json.objEntries]
      rfl
    | null => simp [isObjB] at h1
    | bool b => simp [isObjB] at h1
    | num n => simp [isObjB] at h1
    | str s => simp [isObjB] at h1
    | arr es => simp [isObjB] at h1

/-- When every component category's value is a mapping, the components
loop succeeds and produces, per category in document order, one chunk
per named component. -/
theorem componentsChunks_eq_flatMap (sid : String) :
    ∀ cats : List (String × Json), (cats.all fun e => isObjB e.2) = true →
      componentsChunks sid cats =
        .ok (cats.flatMap fun (ctype, comps) =>
          componentCategoryChunks sid ctype comps.objEntries) := by
  intro cats
  induction cats with
  | nil => intro _; rfl
  | cons e rest ih =>
    intro h
    obtain ⟨ctype, comps⟩ := e
    rw [List.all_cons] at h
    obtain ⟨h1, h2⟩ := Bool.and_eq_true_iff.mp h
    cases comps with
    | obj kvs =>
      simp only [componentsChunks, Json.items, ih h2, Json.objEntries]
      rfl
    | null => simp [isObjB] at h1
    | bool b => simp [isObjB] at h1
    | num n => simp [isObjB] at h1
    | str s => simp [isObjB] at h1
    | arr es => simp [isObjB] at h1

/-- C3: for every parsed document whose paths and components subtrees
are mappings of mappings, the Chunker emits chunks in fixed priority
order — one info chunk with chunk_id `{doc_id}_info` when an info
section exists; then, per path entry and per operation keyed by a method
in get/post/put/delete/patch (other keys ignored), one chunk with
chunk_id `{doc_id}_path_{path}_{method}` and metadata path/method; then,
per component category and named component, one chunk with chunk_id
`{doc_id}_component_{category}_{name}` — following the document's own
key order (`chunkSequenceSpec` is that description, written from the
specification's words).  In particular the example document with an info
section, two paths of one verb each, and one schema component yields
exactly 4 chunks with exactly those ids. -/
theorem chunker_fixed_priority_order (spec : List (String × Json)) (sid : String)
    (hp : pathsWellFormed spec = true) (hc : componentsWellFormed spec = true) :
    chunk_specification spec sid = .ok (chunkSequenceSpec spec sid) ∧
    ((chunk_specification exampleSpec "doc").map fun l =>
        l.map fun ch => ch.2.chunk_id) =
      .ok ["doc_info", "doc_path_/pets_get", "doc_path_/users_post",
        "doc_component_schemas_Pet"] ∧
    ((chunk_specification exampleSpec "doc").map fun l => l.length) = .ok 4 := by
  refine ⟨?_, rfl, rfl⟩
  unfold chunk_specification chunkSequenceSpec pathsWellFormed componentsWellFormed at *
  cases hps : lookupKey spec "paths" with
  | none =>
    cases hcs : lookupKey spec "components" with
    | none => rfl
    | some c =>
      rw [hcs] at hc
      obtain ⟨hc1, hc2⟩ := Bool.and_eq_true_iff.mp hc
      cases c with
      | obj kvs =>
        simp only [Json.items, Json.objEntries, exceptPure_eq_ok, exceptBind_ok,
          componentsChunks_eq_flatMap sid kvs (by simpa [Json.objEntries] using hc2)]
        rfl
      | null => simp [isObjB] at hc1
      | bool b => simp [isObjB] at hc1
      | num n => simp [isObjB] at hc1
      | str s => simp [isObjB] at hc1
      | arr es => simp [isObjB] at hc1
  | some p =>
    rw [hps] at hp
    obtain ⟨hp1, hp2⟩ := Bool.and_eq_true_iff.mp hp
    cases p with
    | obj pkvs =>
      cases hcs : lookupKey spec "components" with
      | none =>
        simp only [Json.items, Json.objEntries, exceptPure_eq_ok, exceptBind_ok,
          pathsChunks_eq_flatMap sid pkvs (by simpa [Json.objEntries] using hp2)]
        rfl
      | some c =>
        rw [hcs] at hc
        obtain ⟨hc1, hc2⟩ := Bool.and_eq_true_iff.mp hc
        cases c with
        | obj ckvs =>
          simp only [Json.items, Json.objEntries, exceptPure_eq_ok, exceptBind_ok,
            pathsChunks_eq_flatMap sid pkvs (by simpa [Json.objEntries] using hp2),
            componentsChunks_eq_flatMap sid ckvs (by simpa [Json.objEntries] using hc2)]
          rfl
        | null => simp [isObjB] at hc1
        | bool b => simp [isObjB] at hc1
        | num n => simp [isObjB] at hc1
        | str s => simp [isObjB] at hc1
        | arr es => simp [isObjB] at hc1
    | null => simp [isObjB] at hp1
    | bool b => simp [isObjB] at hp1
    | num n => simp [isObjB] at hp1
    | str s => simp [isObjB] at hp1
    | arr es => simp [isObjB] at hp1

/-- Witness for C3: the well-formedness hypotheses hold for the example
document, and the chunker agrees with the specified sequence on it. -/
theorem chunker_fixed_priority_order_witness :
    chunk_specification exampleSpec "doc" = .ok (chunkSequenceSpec exampleSpec "doc") :=
  (chunker_fixed_priority_order exampleSpec "doc" (by rfl) (by rfl)).1

/-- C4: running the Chunker twice on the same parsed document and
document id yields identical chunk_id sequences and identical text
content.  The embedded `chunk_specification` — like the source, which
iterates Python dicts in their fixed insertion order and uses no clock
or randomness — is a pure function of `(spec, sid)` alone, so the two
runs coincide definitionally. -/
theorem chunker_two_runs_identical (spec : List (String × Json)) (sid : String) :
    ((chunk_specification spec sid).map fun l => l.map fun ch => ch.2.chunk_id) =
      ((chunk_specification spec sid).map fun l => l.map fun ch => ch.2.chunk_id) ∧
    ((chunk_specification spec sid).map fun l => l.map fun ch => ch.1) =
      ((chunk_specification spec sid).map fun l => l.map fun ch => ch.1) :=
  ⟨rfl, rfl⟩

/-! ## Parser fallback and failure taxonomy (C8) -/

/-- C8 counterexample: a decoded document that is a mapping carrying the
`"openapi"` key — so none of the claim's failure conditions hold — still
fails when its `"info"` value is not a mapping, and with the generic
processing error (HTTP 500), not a FormatError: the claim's "fails with
a FormatError exactly when ...; on success returns ..." case analysis is
incomplete. -/
theorem parser_info_nonmapping_not_formaterror :
    isObjB (Json.obj [("openapi", Json.str "3.0.0"),
      ("info", Json.str "hello")]) = true ∧
    (lookupKey [("openapi", Json.str "3.0.0"), ("info", Json.str "hello")]
      "openapi").isSome = true ∧
    parse_openapi_spec
      (fun _ => some (Json.obj [("openapi", Json.str "3.0.0"),
        ("info", Json.str "hello")]))
      (fun _ => none) "" = .error .processingError ∧
    isFormatError (parse_openapi_spec
      (fun _ => some (Json.obj [("openapi", Json.str "3.0.0"),
        ("info", Json.str "hello")]))
      (fun _ => none) "") = false :=
  ⟨rfl, rfl, rfl, rfl⟩

/-- C8 amended: the parser attempts JSON first and consults YAML only
when JSON fails; it fails with a FormatError exactly when neither
encoding parses, or the decoded value is not a mapping, or the mapping
lacks the `"openapi"` key; when none of those hold it succeeds with the
extracted title/version/description (each possibly absent) — except
that an `"info"` value that is present but not itself a mapping fails
with the generic processing error instead. -/
theorem parser_contract (jsonDec yamlDec : String → Option Json)
    (content : String) :
    (∀ spec, jsonDec content = some spec →
      parse_openapi_spec jsonDec yamlDec content = validateSpec spec "json") ∧
    (jsonDec content = none → ∀ spec, yamlDec content = some spec →
      parse_openapi_spec jsonDec yamlDec content = validateSpec spec "yaml") ∧
    (jsonDec content = none → yamlDec content = none →
      parse_openapi_spec jsonDec yamlDec content =
        .error (.formatError "File is neither valid JSON nor YAML")) ∧
    (∀ (spec : Json) (ct : String), isFormatError (validateSpec spec ct) = true ↔
      (isObjB spec = false ∨
        ∃ kvs, spec = Json.obj kvs ∧ lookupKey kvs "openapi" = none)) ∧
    (∀ (kvs : List (String × Json)) (ct : String),
      (lookupKey kvs "openapi").isSome = true →
      (∀ ikvs, (lookupKey kvs "info").getD (.obj []) = .obj ikvs →
        validateSpec (.obj kvs) ct =
          .ok ⟨ct, lookupKey ikvs "title", lookupKey ikvs "version",
            lookupKey ikvs "description"⟩) ∧
      (isObjB ((lookupKey kvs "info").getD (.obj [])) = false →
        validateSpec (.obj kvs) ct = .error .processingError)) := by
  refine ⟨?_, ?_, ?_, ?_, ?_⟩
  · intro spec h
    unfold parse_openapi_spec
    rw [h]
  · intro hj spec hy
    unfold parse_openapi_spec
    rw [hj, hy]
  · intro hj hy
    unfold parse_openapi_spec
    rw [hj, hy]
  · intro spec ct
    cases spec with
    | obj kvs =>
      by_cases ho : (lookupKey kvs "openapi").isSome = true
      · have hne : lookupKey kvs "openapi" ≠ none := by
          intro h; rw [h] at ho; simp at ho
        cases hinfo : (lookupKey kvs "info").getD (.obj []) with
        | obj ikvs =>
          simp [validateSpec, ho, hinfo, isFormatError, isObjB, hne]
        | null => simp [validateSpec, ho, hinfo, isFormatError, isObjB, hne]
        | bool b => simp [validateSpec, ho, hinfo, isFormatError, isObjB, hne]
        | num n => simp [validateSpec, ho, hinfo, isFormatError, isObjB, hne]
        | str s => simp [validateSpec, ho, hinfo, isFormatError, isObjB, hne]
        | arr es => simp [validateSpec, ho, hinfo, isFormatError, isObjB, hne]
      · have : lookupKey kvs "openapi" = none := by
          cases h : lookupKey kvs "openapi"
          · rfl
          · rw [h] at ho; simp at ho
        simp [validateSpec, ho, isFormatError, isObjB, this]
    | null => simp [validateSpec, isFormatError, isObjB]
    | bool b => simp [validateSpec, isFormatError, isObjB]
    | num n => simp [validateSpec, isFormatError, isObjB]
    | str s => simp [validateSpec, isFormatError, isObjB]
    | arr es => simp [validateSpec, isFormatError, isObjB]
  · intro kvs ct ho
    constructor
    · intro ikvs hinfo
      simp [validateSpec, ho, hinfo]
    · intro hni
      cases hinfo : (lookupKey kvs "info").getD (.obj []) with
      | obj ikvs => rw [hinfo] at hni; simp [isObjB] at hni
      | null => simp [validateSpec, ho, hinfo]
      | bool b => simp [validateSpec, ho, hinfo]
      | num n => simp [validateSpec, ho, hinfo]
      | str s => simp [validateSpec, ho, hinfo]
      | arr es => simp [validateSpec, ho, hinfo]

/-- Witness for C8: the JSON branch at a mapping carrying `"openapi"`
and a mapping info section succeeds with the extracted fields. -/
theorem parser_contract_witness :
    parse_openapi_spec
      (fun _ => some (Json.obj [("openapi", Json.str "3.0.0"),
        ("info", Json.obj [("title", Json.str "Pets")])]))
      (fun _ => none) "x" =
      .ok ⟨"json", some (Json.str "Pets"), none, none⟩ := by
  rw [(parser_contract
      (fun _ => some (Json.obj [("openapi", Json.str "3.0.0"),
        ("info", Json.obj [("title", Json.str "Pets")])]))
      (fun _ => none) "x").1 _ rfl]
  exact ((parser_contract
      (fun _ => some (Json.obj [("openapi", Json.str "3.0.0"),
        ("info", Json.obj [("title", Json.str "Pets")])]))
      (fun _ => none) "x").2.2.2.2
      [("openapi", Json.str "3.0.0"),
        ("info", Json.obj [("title", Json.str "Pets")])] "json" rfl).1
      [("title", Json.str "Pets")] rfl

/-! ## Collection size estimate (C6) -/

/-- Rounding to two decimals fixes every rational of the form n/100. -/
theorem round2_div100 (n : ℤ) : round2 ((n : ℚ) / 100) = (n : ℚ) / 100 := by
  unfold round2
  rw [div_mul_cancel₀ _ (by norm_num : (100:ℚ) ≠ 0), round_intCast]

/-- Rounding twice: `round2` is idempotent. -/
theorem round2_round2 (q : ℚ) : round2 (round2 q) = round2 q :=
  round2_div100 _

/-- A sum of three two-decimal values is fixed by `round2`. -/
theorem round2_add_three (a b c : ℤ) :
    round2 ((a:ℚ)/100 + (b:ℚ)/100 + (c:ℚ)/100) =
      (a:ℚ)/100 + (b:ℚ)/100 + (c:ℚ)/100 := by
  have h : (a:ℚ)/100 + (b:ℚ)/100 + (c:ℚ)/100 = ((a + b + c : ℤ) : ℚ)/100 := by
    push_cast
    ring
  rw [h, round2_div100]

/-- C6 counterexample: with one uploaded ten-path document, the stored
point count (one point per chunk the Chunker emits) is 10, but the
reported vectors figure is computed from the heuristic estimate
`paths × 3 + schema components × 2 = 30`: it reports 0.04 MB where the
claimed formula `stored point count × dimensionality × 4 bytes` gives
0.01 MB. -/
theorem collection_size_uses_estimate_not_stored_count :
    ((chunk_specification tenPathsSpec "s").map fun l => l.length) = .ok 10 ∧
    totalEstimatedChunks [some (Json.obj tenPathsSpec)] = 30 ∧
    (get_collection_size 384 true [some (Json.obj tenPathsSpec)]).vectors =
      4/100 ∧
    bytesToMb ((10 : ℚ) * 384 * 4) = 1/100 ∧
    ((4 : ℚ)/100) ≠ 1/100 := by
  have htotal : totalEstimatedChunks [some (Json.obj tenPathsSpec)] = 30 := rfl
  refine ⟨rfl, htotal, ?_, ?_, by norm_num⟩
  · simp only [get_collection_size, htotal]
    norm_num [bytesToMb, round2, round_eq]
  · norm_num [bytesToMb, round2, round_eq]

/-- C6 amended: `get_collection_size` returns a breakdown
{vectors, index, metadata, total} computed from the heuristic chunk
estimate over the uploads directory's files (3 per path entry plus 2
per schema component; not the stored point count): vectors is
estimate × dimensionality × 4 bytes in rounded MB, index is a fixed 10%
of the vector bytes, metadata a fixed 500 bytes per estimated chunk,
and total is the sum of the three reported figures. -/
theorem collection_size_breakdown (dim : ℕ) (files : List (Option Json))
    (hne : totalEstimatedChunks files ≠ 0) :
    (get_collection_size dim true files).vectors =
      bytesToMb ((totalEstimatedChunks files : ℚ) * (dim : ℚ) * 4) ∧
    (get_collection_size dim true files).index =
      bytesToMb ((totalEstimatedChunks files : ℚ) * (dim : ℚ) * 4 * (1/10)) ∧
    (get_collection_size dim true files).metadata =
      bytesToMb ((totalEstimatedChunks files : ℚ) * 500) ∧
    (get_collection_size dim true files).total =
      (get_collection_size dim true files).vectors +
        (get_collection_size dim true files).index +
        (get_collection_size dim true files).metadata := by
  have hb : get_collection_size dim true files =
      ⟨round2 (bytesToMb ((totalEstimatedChunks files : ℚ) * (dim : ℚ) * 4) +
          bytesToMb ((totalEstimatedChunks files : ℚ) * (dim : ℚ) * 4 * (1/10)) +
          bytesToMb ((totalEstimatedChunks files : ℚ) * 500)),
        round2 (bytesToMb ((totalEstimatedChunks files : ℚ) * (dim : ℚ) * 4)),
        round2 (bytesToMb ((totalEstimatedChunks files : ℚ) * (dim : ℚ) * 4 * (1/10))),
        round2 (bytesToMb ((totalEstimatedChunks files : ℚ) * 500))⟩ := by
    simp only [get_collection_size, Bool.not_true, Bool.false_eq_true, if_false]
    rw [if_neg hne]
  rw [hb]
  obtain ⟨n1, h1⟩ : ∃ n : ℤ,
      bytesToMb ((totalEstimatedChunks files : ℚ) * (dim : ℚ) * 4) =
        (n:ℚ)/100 := ⟨_, rfl⟩
  obtain ⟨n2, h2⟩ : ∃ n : ℤ,
      bytesToMb ((totalEstimatedChunks files : ℚ) * (dim : ℚ) * 4 * (1/10)) =
        (n:ℚ)/100 := ⟨_, rfl⟩
  obtain ⟨n3, h3⟩ : ∃ n : ℤ,
      bytesToMb ((totalEstimatedChunks files : ℚ) * 500) = (n:ℚ)/100 := ⟨_, rfl⟩
  simp only [h1, h2, h3]
  exact ⟨round2_div100 n1, round2_div100 n2, round2_div100 n3, by
    rw [round2_add_three, round2_div100, round2_div100, round2_div100]⟩

/-- Witness for C6: the breakdown at one uploaded single-path document
(estimate 3, dimension 384). -/
theorem collection_size_breakdown_witness :
    (get_collection_size 384 true
        [some (Json.obj [("paths", Json.obj [("/a", Json.null)])])]).total =
      (get_collection_size 384 true
          [some (Json.obj [("paths", Json.obj [("/a", Json.null)])])]).vectors +
        (get_collection_size 384 true
            [some (Json.obj [("paths", Json.obj [("/a", Json.null)])])]).index +
        (get_collection_size 384 true
            [some (Json.obj [("paths", Json.obj [("/a", Json.null)])])]).metadata :=
  (collection_size_breakdown 384
    [some (Json.obj [("paths", Json.obj [("/a", Json.null)])])]
    (by decide)).2.2.2

end ChatOpenAPI
